import Mathlib

/-!
Verification of the concept-discovery term-resolution pipeline.

The repository ships a React frontend (MainContainer, Stepper, StepSynonyms,
StepTableResults, SearchBox, Dashboard) that drives a backend over
/api/search, /api/synonyms, /api/concept_lookup, /api/select_synonym and
/api/metrics.  The backend itself is not part of the source dump (only its
Python dependency manifest is), so the operations it owns
(disambiguate, expand, resolve, record_query, compute_metrics) are modelled
here from the written specification, while every frontend behaviour is
embedded from the TypeScript source.  Maps are modelled as association
lists, machine integers as Nat, and fallible operations return Except.
String case folding and whitespace handling are modelled over the character
list of a string, so that every definition evaluates by kernel reduction.
-/

/-! ## Generic helpers -/

/-- Generic first-occurrence deduplication by a key function, with an
accumulator of the keys already seen. -/
def dedupByAux {α : Type} {κ : Type} [DecidableEq κ] (key : α → κ) :
    List κ → List α → List α
  | _, [] => []
  | seen, x :: xs =>
    if key x ∈ seen then dedupByAux key seen xs
    else x :: dedupByAux key (key x :: seen) xs

/-- Keep the first element for every key, dropping later elements whose key
was already seen. -/
def dedupBy {α : Type} {κ : Type} [DecidableEq κ] (key : α → κ) (l : List α) : List α :=
  dedupByAux key [] l

/-- Association-list counter increment: bump the count of one key, appending
a fresh entry when the key is new. -/
def bumpCount {κ : Type} [DecidableEq κ] (k : κ) : List (κ × Nat) → List (κ × Nat)
  | [] => [(k, 1)]
  | (k₀, n) :: rest => if k = k₀ then (k₀, n + 1) :: rest else (k₀, n) :: bumpCount k rest

/-- Count the occurrences of every value of a list, as an association list. -/
def countBy {κ : Type} [DecidableEq κ] (l : List κ) : List (κ × Nat) :=
  l.foldl (fun acc k => bumpCount k acc) []

/-- Character-wise lower casing of a string (the casefold step of the
normalization rules; works on the character list so it evaluates by kernel
reduction). -/
def lowerString (s : String) : String := ⟨s.data.map Char.toLower⟩

/-- A string is blank when every character is whitespace, that is, it trims
to the empty string. -/
def isBlank (s : String) : Bool := s.data.all Char.isWhitespace

/-- Strip leading and trailing whitespace from a string. -/
def stripOuterBlanks (s : String) : String :=
  ⟨((s.data.dropWhile Char.isWhitespace).reverse.dropWhile Char.isWhitespace).reverse⟩

/-! ## Data model (spec section 3) -/

/-- Modelled from the spec: SearchQuery is the per-search row
{id, raw_term, language_code, created_at}; the backend persistence layer is
not in the source dump. -/
structure SearchQueryRow where
  id : Nat
  raw_term : String
  language_code : String
  created_at : Nat
deriving DecidableEq

/-- Modelled from the spec: SearchPath is the append-only analytics fact
{search_id, term, language_code, timestamp, selected_synonyms}; the backend
persistence layer is not in the source dump. -/
structure SearchPathRow where
  search_id : Nat
  term : String
  language_code : String
  timestamp : Nat
  selected_synonyms : List String
deriving DecidableEq

/-- Modelled from the spec: a candidate sense produced by the Disambiguation
Engine, with the inferred relevance used for ordering; the engine itself is
not in the source dump (the frontend only renders its fields term,
definition, category, usage, context). -/
structure DisambiguationCandidate where
  term : String
  definition : String
  category : String
  usage : String
  context : String
  relevance : Nat
deriving DecidableEq

/-- Modelled from the spec: SynonymCandidate is {text, source_language}. -/
structure SynonymCandidate where
  text : String
  source_language : String
deriving DecidableEq

/-- The standard-concept designation enum of a ConceptRecord. -/
inductive StandardConcept
  | standard
  | nonStandard
  | classification
deriving DecidableEq

/-- Modelled from the spec: ConceptRecord as sourced from the Vocabulary
Store, with the relevance_score the resolver computes; the resolver backend
is not in the source dump (the frontend ConceptTableRow mirrors these
fields). -/
structure ConceptRecord where
  concept_id : Nat
  code : String
  name : String
  class_name : String
  domain : String
  vocabulary : String
  standard_concept : StandardConcept
  invalid_reason : Option String
  relevance_score : Nat
deriving DecidableEq

/-! ## Disambiguation Engine (spec section 4.1), modelled from the spec -/

/-- The ordering of disambiguation candidates: descending inferred relevance,
ties broken by the shorter definition. -/
def relRank (a b : DisambiguationCandidate) : Prop :=
  b.relevance < a.relevance ∨
    (a.relevance = b.relevance ∧ a.definition.length ≤ b.definition.length)

instance : DecidableRel relRank := fun a b => by unfold relRank; infer_instance

instance : IsTotal DisambiguationCandidate relRank := ⟨by intro a b; unfold relRank; omega⟩

instance : IsTrans DisambiguationCandidate relRank := ⟨by intro a b c; unfold relRank; omega⟩

/-- Modelled from the spec: the post-processing of the Disambiguation Engine
over the structured candidates returned by the generative-text service
(which is an external capability): order by descending inferred relevance
with the shorter definition breaking ties, and drop later duplicates of an
already-seen (term, category) pair. -/
def disambiguate (raws : List DisambiguationCandidate) : List DisambiguationCandidate :=
  dedupBy (fun c => (c.term, c.category)) (List.insertionSort relRank raws)

/-! ## Synonym Expander (spec section 4.2), modelled from the spec -/

/-- Modelled from the spec: the Synonym Expander seeds the result with the
selected term itself and deduplicates case-insensitively, keeping the seed
as the first element; the expander backend is not in the source dump. The
raw synonyms come from the generative-text service, an external
capability. -/
def expand (term : String) (_context : String) (language : String)
    (raws : List SynonymCandidate) : List SynonymCandidate :=
  dedupBy (fun s => lowerString s.text)
    ({ text := term, source_language := language } :: raws)

/-! ## Concept Resolver (spec section 4.3), modelled from the spec -/

/-- Normalization of query and concept names: strip outer whitespace and
casefold (diacritic stripping per language rules is folded into the
similarity function argument of the resolver). -/
def normalizeText (s : String) : String := lowerString (stripOuterBlanks s)

/-- Whether a concept name exactly matches the normalized query text. -/
def exactNameMatch (text : String) (c : ConceptRecord) : Bool :=
  normalizeText c.name == normalizeText text

/-- Modelled from the spec: the lexical match score of a concept for a
query, a combination of string similarity and an exact-match boost. -/
def matchScore (sim : String → String → Nat) (boost : Nat) (text : String)
    (c : ConceptRecord) : Nat :=
  sim (normalizeText text) (normalizeText c.name) +
    (if exactNameMatch text c then boost else 0)

/-- The rank bucket of a scored concept: Standard concepts with an exact
name match first, then the remaining Standard concepts, then the
non-Standard ones. -/
def rankGroup (text : String) (c : ConceptRecord) : Nat :=
  if c.standard_concept = StandardConcept.standard then
    (if exactNameMatch text c then 0 else 1)
  else 2

/-- The ranking order of resolved concepts: by rank bucket, then by
descending relevance score, ties broken by ascending concept_id. -/
def rankedBefore (text : String) (a b : ConceptRecord) : Prop :=
  rankGroup text a < rankGroup text b ∨
    (rankGroup text a = rankGroup text b ∧
      (b.relevance_score < a.relevance_score ∨
        (a.relevance_score = b.relevance_score ∧ a.concept_id ≤ b.concept_id)))

instance (text : String) : DecidableRel (rankedBefore text) := fun a b => by
  unfold rankedBefore; infer_instance

instance (text : String) : IsTotal ConceptRecord (rankedBefore text) :=
  ⟨by intro a b; unfold rankedBefore; omega⟩

instance (text : String) : IsTrans ConceptRecord (rankedBefore text) :=
  ⟨by intro a b c; unfold rankedBefore; omega⟩

/-- Every store concept carrying the match score the resolver computed for
it as its relevance_score. -/
def scoredConcepts (sim : String → String → Nat) (boost : Nat) (text : String)
    (store : List ConceptRecord) : List ConceptRecord :=
  store.map (fun c => { c with relevance_score := matchScore sim boost text c })

/-- The scored concepts whose score reaches the minimum similarity
threshold. -/
def matchedConcepts (sim : String → String → Nat) (boost : Nat) (threshold : Nat)
    (text : String) (store : List ConceptRecord) : List ConceptRecord :=
  (scoredConcepts sim boost text store).filter (fun c => threshold ≤ c.relevance_score)

/-- For every matched non-Standard concept, the Standard targets of the
maps-to relationship, surfaced as additional entries carrying the source
match score. -/
def mappedTargets (sim : String → String → Nat) (boost : Nat) (threshold : Nat)
    (mapsTo : Nat → List Nat) (store : List ConceptRecord) (text : String) :
    List ConceptRecord :=
  ((matchedConcepts sim boost threshold text store).map (fun c =>
    if c.standard_concept = StandardConcept.standard then []
    else
      (store.filter (fun t =>
        (mapsTo c.concept_id).contains t.concept_id &&
          decide (t.standard_concept = StandardConcept.standard))).map
        (fun t => { t with relevance_score := c.relevance_score }))).flatten

/-- Modelled from the spec: the Concept Resolver, which is not in the source
dump. Normalize the text, score every store concept by similarity plus an
exact-match boost, keep the matches at or above the minimum threshold,
surface the Standard targets of the maps-to relationship for every matched
non-Standard concept as additional entries carrying the source match score,
drop concepts whose invalid_reason is set (they must not be offered as a
final recommendation), and rank by rankedBefore. -/
def resolve (sim : String → String → Nat) (boost : Nat) (threshold : Nat)
    (mapsTo : Nat → List Nat) (store : List ConceptRecord)
    (text : String) (_language : String) : List ConceptRecord :=
  List.insertionSort (rankedBefore text)
    ((matchedConcepts sim boost threshold text store ++
        mappedTargets sim boost threshold mapsTo store text).filter
      (fun c => decide (c.invalid_reason = none)))

/-- The failure taxonomy of a resolver request against the store. -/
inductive ResolveError
  | storeUnavailable
deriving DecidableEq

/-- Modelled from the spec: the resolver endpoint, which fails with
StoreUnavailable when the vocabulary store is unreachable and otherwise
returns the ranked (possibly empty) concept list as a success. -/
def resolveApi (storeUp : Bool) (sim : String → String → Nat) (boost : Nat)
    (threshold : Nat) (mapsTo : Nat → List Nat) (store : List ConceptRecord)
    (text : String) (language : String) : Except ResolveError (List ConceptRecord) :=
  if storeUp then
    Except.ok (resolve sim boost threshold mapsTo store text language)
  else
    Except.error ResolveError.storeUnavailable

/-! ## Search entry point (spec sections 4.1, 7, 8), modelled from the spec -/

deriving instance DecidableEq for Except

/-- The failure taxonomy of the search operation. -/
inductive SearchError
  | emptyInput
  | inferenceUnavailable
  | noCandidatesFound
deriving DecidableEq

/-- The observable outcome of one search request: its result, how many
calls reached the generative-text service, and the SearchQuery rows the
request created. -/
structure SearchOutcome where
  result : Except SearchError (List DisambiguationCandidate)
  inference_calls : Nat
  created_queries : List SearchQueryRow
deriving DecidableEq

/-- Modelled from the spec: the backend search operation, which is not in
the source dump (the frontend SearchBox forwards the raw term to
/api/search unchanged).  A term that is blank after trimming is rejected
with EmptyInput before any network call and before a SearchQuery row is
created; otherwise one inference call is made, a SearchQuery row is
recorded, and the candidates go through disambiguate, an empty filtered
list being reported as NoCandidatesFound. -/
def searchOp (nextId : Nat) (now : Nat) (term : String) (language : String)
    (inference : Except String (List DisambiguationCandidate)) : SearchOutcome :=
  if isBlank term then
    { result := Except.error SearchError.emptyInput
      inference_calls := 0
      created_queries := [] }
  else
    let row : SearchQueryRow :=
      { id := nextId, raw_term := term, language_code := language, created_at := now }
    match inference with
    | Except.error _ =>
        { result := Except.error SearchError.inferenceUnavailable
          inference_calls := 1
          created_queries := [row] }
    | Except.ok raws =>
        let cands := disambiguate raws
        { result :=
            if cands.isEmpty then Except.error SearchError.noCandidatesFound
            else Except.ok cands
          inference_calls := 1
          created_queries := [row] }

/-! ## Search Analytics Recorder and Aggregator (spec section 4.5),
modelled from the spec -/

/-- Modelled from the spec: record_query is best-effort, so what the
pipeline observes after a recording attempt wrapped around a search is the
optional search id together with the untouched user-facing results; a
persistence error is swallowed from the perspective of the pipeline (the
recorder backend is not in the source dump). -/
def searchWithRecording (recordOutcome : Except String Nat)
    (results : List DisambiguationCandidate) :
    Option Nat × List DisambiguationCandidate :=
  match recordOutcome with
  | Except.ok sid => (some sid, results)
  | Except.error _ => (none, results)

/-- Modelled from the spec: the rollup metrics snapshot recomputed on
demand from the SearchQuery and SearchPath history. -/
structure MetricsSnapshot where
  total_searches : Nat
  language_distribution : List (String × Nat)
  search_trend : List (Nat × Nat)
  common_search_terms : List (String × Nat)
  concept_lookup_percentage : Nat
  most_viewed_concepts : List (String × Nat)
  most_selected_synonyms : List (String × Nat)
deriving DecidableEq

/-- Modelled from the spec: compute_metrics, the pure aggregation over the
append-only SearchQuery and SearchPath history (the aggregator backend is
not in the source dump).  Selecting a synonym triggers the concept lookup
for it, so the most-viewed concepts are counted from the selected
synonyms.  The empty history yields zero counts and empty maps rather than
an error; the percentage guards the division accordingly. -/
def compute_metrics (queries : List SearchQueryRow) (paths : List SearchPathRow) :
    MetricsSnapshot :=
  let selections := (paths.map (fun p => p.selected_synonyms)).flatten
  let resolvedCount :=
    (queries.filter (fun q =>
      paths.any (fun p => p.search_id == q.id && !p.selected_synonyms.isEmpty))).length
  { total_searches := queries.length
    language_distribution := countBy (queries.map (fun q => q.language_code))
    search_trend := countBy (queries.map (fun q => q.created_at / 86400))
    common_search_terms := countBy (queries.map (fun q => lowerString q.raw_term))
    concept_lookup_percentage :=
      if queries.length = 0 then 0 else 100 * resolvedCount / queries.length
    most_viewed_concepts := countBy selections
    most_selected_synonyms := countBy selections }

/-! ## Frontend embedding: MainContainer and Stepper -/

/-- The disambiguation row as the frontend MainContainer receives it from
/api/search (interface DisambiguationResult). -/
structure DisambiguationResult where
  term : String
  definition : String
  category : String
  usage : String
  context : String
deriving DecidableEq

/-- The concept row as the frontend receives it from /api/concept_lookup
(interface ConceptTableRow). -/
structure ConceptTableRow where
  concept_id : Nat
  code : String
  name : String
  class_name : String
  standard_concept : String
  invalid_reason : Option String
  domain : String
  vocabulary : String
  score : Option Nat
deriving DecidableEq

/-- The outcome of one frontend API request, as the axios handlers see it:
a payload or a caught error message. -/
inductive ApiResult (α : Type)
  | ok (val : α)
  | err (msg : String)
deriving DecidableEq

/-- The MainContainer state the handlers update (the transient loading
flags, which are always reset in the finally blocks, are omitted). -/
structure MainState where
  searchResults : List DisambiguationResult
  synonyms : List String
  conceptTable : List ConceptTableRow
  error : Option String
  hasSearched : Bool
  selectedTerm : Option DisambiguationResult
  lastSearchTerm : String
  currentStep : Nat
deriving DecidableEq

/-- The MainContainer state on first render: everything empty, step 0. -/
def initState : MainState :=
  { searchResults := []
    synonyms := []
    conceptTable := []
    error := none
    hasSearched := false
    selectedTerm := none
    lastSearchTerm := ""
    currentStep := 0 }

/-- One user interaction of the pipeline UI, carrying the response its
handler awaited where the handler performs a request. -/
inductive UiEvent
  | search (term : String) (response : ApiResult (List DisambiguationResult))
  | disambiguationSelect (term : DisambiguationResult) (response : ApiResult (List String))
  | synonymClick (synonym : String) (response : ApiResult (List ConceptTableRow))
  | stepClick (index : Nat)
  | stepNext
  | stepBack
deriving DecidableEq

/-- The number of steps the MainContainer passes to the Stepper:
disambiguation, synonyms, results. -/
def stepsLength : Nat := 3

/-- One handler execution, embedded from MainContainer (handleSearch,
handleDisambiguationSelect, handleSynonymClick with its success and error
paths) and from Stepper (handleStepClick, handleNext, handleBack, which
report the new step through onStepChange into handleStepChange). -/
def applyEvent (s : MainState) : UiEvent → MainState
  | UiEvent.search term response =>
    let s₀ := { s with
      error := none
      lastSearchTerm := term
      hasSearched := true
      selectedTerm := none
      conceptTable := []
      currentStep := 0 }
    match response with
    | ApiResult.ok results => { s₀ with searchResults := results }
    | ApiResult.err msg => { s₀ with error := some msg }
  | UiEvent.disambiguationSelect term response =>
    let s₀ := { s with
      error := none
      selectedTerm := some term
      conceptTable := [] }
    match response with
    | ApiResult.ok syns => { s₀ with synonyms := syns, currentStep := 1 }
    | ApiResult.err msg => { s₀ with error := some msg }
  | UiEvent.synonymClick _synonym response =>
    let s₀ := { s with error := none }
    match response with
    | ApiResult.ok concepts =>
      if concepts.length = 0 then { s₀ with conceptTable := [] }
      else { s₀ with conceptTable := concepts, currentStep := 2 }
    | ApiResult.err msg => { s₀ with error := some msg }
  | UiEvent.stepClick index =>
    if index ≤ s.currentStep + 1 then { s with currentStep := index } else s
  | UiEvent.stepNext =>
    if s.currentStep = stepsLength - 1 then s
    else { s with currentStep := s.currentStep + 1 }
  | UiEvent.stepBack =>
    if s.currentStep = 0 then s
    else { s with currentStep := s.currentStep - 1 }

/-- Run a sequence of user interactions from a state. -/
def runEvents (s : MainState) : List UiEvent → MainState
  | [] => s
  | e :: es => runEvents (applyEvent s e) es

/-- Whether an event is a synonym selection whose concept lookup succeeded
with a non-empty list (the only transition that fills the concept table). -/
def isConceptFillingClick : UiEvent → Bool
  | UiEvent.synonymClick _ (ApiResult.ok concepts) => !concepts.isEmpty
  | _ => false

/-- Whether an event is a disambiguation selection whose synonym request
succeeded (the only transition that fills the synonym list). -/
def isSynonymFillingSelect : UiEvent → Bool
  | UiEvent.disambiguationSelect _ (ApiResult.ok _) => true
  | _ => false

/-! ## Frontend embedding: StepSynonyms, StepTableResults, Dashboard -/

/-- What one StepSynonyms click produces: whether the selection was
recorded, what was logged, and the synonym handed to onSynonymClick. -/
structure SynClickEffect where
  recorded : Bool
  logged_error : Option String
  forwarded_synonym : String
deriving DecidableEq

namespace StepSynonyms

/-- Embedded from StepSynonyms.handleSynonymClick: when a searchId is
present the selection is posted to /api/select_synonym inside try/catch, a
failure being only logged; the click is then always forwarded to
onSynonymClick. -/
def handleSynonymClick (searchId : Option Nat) (postResult : Except String Unit)
    (synonym : String) : SynClickEffect :=
  match searchId with
  | none =>
    { recorded := false, logged_error := none, forwarded_synonym := synonym }
  | some _ =>
    match postResult with
    | Except.ok _ =>
      { recorded := true, logged_error := none, forwarded_synonym := synonym }
    | Except.error e =>
      { recorded := false, logged_error := some e, forwarded_synonym := synonym }

end StepSynonyms

/-- What StepTableResults renders. -/
inductive ResultsView
  | noConceptsFound
  | conceptTableView (rows : List ConceptTableRow)
deriving DecidableEq

/-- Embedded from StepTableResults: an empty concept table renders the
noConceptsFound message, a non-empty one renders the table. -/
def stepTableResults (conceptTable : List ConceptTableRow) : ResultsView :=
  if conceptTable.length = 0 then ResultsView.noConceptsFound
  else ResultsView.conceptTableView conceptTable

/-- The /api/metrics response as the Dashboard may receive it: any field
can be missing. -/
structure RawMetricsResponse where
  language_distribution : Option (List (String × Nat))
  total_searches : Option Nat
  search_trend : Option (List (String × Nat))
  common_search_terms : Option (List (String × Nat))
  concept_lookup_percentage : Option Nat
  most_viewed_concepts : Option (List (String × Nat))
deriving DecidableEq

/-- The MetricsData object the Dashboard stores: every field defined. -/
structure MetricsData where
  language_distribution : List (String × Nat)
  total_searches : Nat
  search_trend : List (String × Nat)
  common_search_terms : List (String × Nat)
  concept_lookup_percentage : Nat
  most_viewed_concepts : List (String × Nat)
deriving DecidableEq

/-- Embedded from Dashboard.fetchData: the stored metrics object is built
field by field from the response, a missing or falsy field falling back to
its default (the numeric defaults coincide for the falsy value 0, and an
empty object or array is truthy in the source, so keeping present values is
faithful). -/
def fetchDataDefaults (d : RawMetricsResponse) : MetricsData :=
  { language_distribution := d.language_distribution.getD []
    total_searches := d.total_searches.getD 0
    search_trend := d.search_trend.getD []
    common_search_terms := d.common_search_terms.getD []
    concept_lookup_percentage := d.concept_lookup_percentage.getD 0
    most_viewed_concepts := d.most_viewed_concepts.getD [] }

/-! ## Concrete demonstration values used by witnesses and counterexamples -/

/-- A concrete valid Standard concept of the vocabulary store. -/
def demoConcept : ConceptRecord :=
  { concept_id := 1
    code := "J00"
    name := "flu"
    class_name := "Clinical Finding"
    domain := "Condition"
    vocabulary := "SNOMED"
    standard_concept := StandardConcept.standard
    invalid_reason := none
    relevance_score := 0 }

/-- A concrete disambiguation row as the frontend renders it. -/
def demoSense : DisambiguationResult :=
  { term := "cold"
    definition := "a viral infection of the upper airways"
    category := "Condition"
    usage := "common usage"
    context := "medical context" }

/-! ## Helper theorems -/

theorem dedupByAux_sublist {α κ : Type} [DecidableEq κ] (key : α → κ) :
    ∀ (seen : List κ) (l : List α), (dedupByAux key seen l).Sublist l := by
  intro seen l
  induction l generalizing seen with
  | nil => simp [dedupByAux]
  | cons x xs ih =>
    simp only [dedupByAux]
    by_cases hx : key x ∈ seen
    · exact List.Sublist.cons x (by simpa [hx] using ih seen)
    · simpa [hx] using List.Sublist.cons₂ x (ih (key x :: seen))

theorem dedupByAux_key_not_mem {α κ : Type} [DecidableEq κ] (key : α → κ) :
    ∀ (seen : List κ) (l : List α) (x : α),
      x ∈ dedupByAux key seen l → key x ∉ seen := by
  intro seen l
  induction l generalizing seen with
  | nil => intro x hx; simp [dedupByAux] at hx
  | cons y ys ih =>
    intro x hx
    simp only [dedupByAux] at hx
    by_cases hy : key y ∈ seen
    · exact ih seen x (by simpa [hy] using hx)
    · rw [if_neg hy] at hx
      rcases List.mem_cons.mp hx with h | h
      · subst h; exact hy
      · have := ih (key y :: seen) x h
        intro hmem
        exact this (List.mem_cons_of_mem _ hmem)

theorem dedupByAux_pairwise_ne {α κ : Type} [DecidableEq κ] (key : α → κ) :
    ∀ (seen : List κ) (l : List α),
      (dedupByAux key seen l).Pairwise (fun a b => key a ≠ key b) := by
  intro seen l
  induction l generalizing seen with
  | nil => simp [dedupByAux]
  | cons y ys ih =>
    simp only [dedupByAux]
    by_cases hy : key y ∈ seen
    · simpa [hy] using ih seen
    · rw [if_neg hy]
      refine List.Pairwise.cons ?_ (ih (key y :: seen))
      intro b hb
      have := dedupByAux_key_not_mem key (key y :: seen) ys b hb
      intro hkey
      exact this (by rw [← hkey]; exact List.mem_cons_self _ _)

theorem dedupBy_pairwise_ne {α κ : Type} [DecidableEq κ] (key : α → κ) (l : List α) :
    (dedupBy key l).Pairwise (fun a b => key a ≠ key b) :=
  dedupByAux_pairwise_ne key [] l

theorem dedupBy_sublist {α κ : Type} [DecidableEq κ] (key : α → κ) (l : List α) :
    (dedupBy key l).Sublist l :=
  dedupByAux_sublist key [] l

theorem dedupBy_cons {α κ : Type} [DecidableEq κ] (key : α → κ) (a : α) (l : List α) :
    dedupBy key (a :: l) = a :: dedupByAux key [key a] l := by
  simp [dedupBy, dedupByAux]

/-! ## Claim theorems -/

/-- C1: for every input text and language, the sequence returned by
resolve(text, language) is ordered as all Standard concepts with an exact
normalized-name match first, then the remaining Standard concepts by
descending similarity score, then non-Standard concepts by descending
similarity score, ties broken by ascending concept_id (the order
rankedBefore). -/
theorem resolve_ranking_order (sim : String → String → Nat) (boost threshold : Nat)
    (mapsTo : Nat → List Nat) (store : List ConceptRecord) (text language : String) :
    List.Sorted (rankedBefore text)
      (resolve sim boost threshold mapsTo store text language) := by
  unfold resolve
  exact List.sorted_insertionSort _ _

/-- C2: for every term, context and language, expand returns a non-empty
sequence whose first element is the selected term itself, which therefore
contains the seed term, and no two elements of which are equal up to letter
case. -/
theorem expand_contract (term context language : String) (raws : List SynonymCandidate) :
    expand term context language raws ≠ [] ∧
    (expand term context language raws).head? =
      some { text := term, source_language := language } ∧
    ({ text := term, source_language := language } : SynonymCandidate) ∈
      expand term context language raws ∧
    (expand term context language raws).Pairwise
      (fun a b => lowerString a.text ≠ lowerString b.text) := by
  have hcons : expand term context language raws =
      { text := term, source_language := language } ::
        dedupByAux (fun s => lowerString s.text)
          [lowerString term] raws := by
    unfold expand
    exact dedupBy_cons _ _ _
  refine ⟨by rw [hcons]; exact List.cons_ne_nil _ _, by rw [hcons]; rfl,
    by rw [hcons]; exact List.mem_cons_self _ _, ?_⟩
  have := dedupBy_pairwise_ne (fun s : SynonymCandidate => lowerString s.text)
    ({ text := term, source_language := language } :: raws)
  exact this

/-- C3: resolve never returns a concept whose invalid_reason is set: every
concept of the returned ranked list has invalid_reason none, so in
particular an invalid concept is never the sole top-ranked result and is
never offered as a final recommendation. -/
theorem resolve_never_offers_invalid (sim : String → String → Nat)
    (boost threshold : Nat) (mapsTo : Nat → List Nat) (store : List ConceptRecord)
    (text language : String) (c : ConceptRecord)
    (hc : c ∈ resolve sim boost threshold mapsTo store text language) :
    c.invalid_reason = none := by
  unfold resolve at hc
  have hmem := (List.perm_insertionSort (rankedBefore text) _).mem_iff.mp hc
  have hfil := List.mem_filter.mp hmem
  exact of_decide_eq_true hfil.2

/-- Witness for C3: a store of one valid Standard concept named flu; the
resolver returns it with score 1 and its invalid_reason is none. -/
theorem resolve_never_offers_invalid_witness :
    ({ demoConcept with relevance_score := 1 } : ConceptRecord).invalid_reason = none :=
  resolve_never_offers_invalid (fun _ _ => 1) 0 0 (fun _ => []) [demoConcept] "flu" "en"
    { demoConcept with relevance_score := 1 } (by decide)

/-- C6: for every raw candidate list, the result of disambiguate has no two
candidates sharing the same (term, category) pair and is ordered by
descending inferred relevance with ties broken by the shorter definition
(the order relRank); the function is pure, so repeated calls with the same
cached input return the identical ordered list. -/
theorem disambiguate_ordered_and_keyed (raws : List DisambiguationCandidate) :
    (disambiguate raws).Pairwise
      (fun a b => (a.term, a.category) ≠ (b.term, b.category)) ∧
    (disambiguate raws).Sorted relRank := by
  constructor
  · exact dedupBy_pairwise_ne _ _
  · exact List.Pairwise.sublist (dedupBy_sublist _ _)
      (List.sorted_insertionSort relRank raws)

theorem matchedConcepts_eq_nil (sim : String → String → Nat) (boost threshold : Nat)
    (text : String) (store : List ConceptRecord)
    (h : ∀ c ∈ store, matchScore sim boost text c < threshold) :
    matchedConcepts sim boost threshold text store = [] := by
  unfold matchedConcepts scoredConcepts
  rw [List.filter_eq_nil_iff]
  intro a ha
  rcases List.mem_map.mp ha with ⟨c, hc, rfl⟩
  simp only [decide_eq_true_eq]
  exact Nat.not_le.mpr (h c hc)

theorem resolve_below_threshold (sim : String → String → Nat) (boost threshold : Nat)
    (mapsTo : Nat → List Nat) (store : List ConceptRecord) (text language : String)
    (h : ∀ c ∈ store, matchScore sim boost text c < threshold) :
    resolve sim boost threshold mapsTo store text language = [] := by
  unfold resolve mappedTargets
  rw [matchedConcepts_eq_nil sim boost threshold text store h]
  rfl

/-- C4: when nothing in the store matches at or above the minimum
similarity threshold and the store is reachable, resolveApi returns the
empty list as a success; the same request against an unreachable store
fails with StoreUnavailable, a value distinct from the empty success, and
the frontend renders the empty table as the noConceptsFound terminal
state. -/
theorem resolve_empty_success_distinct (sim : String → String → Nat)
    (boost threshold : Nat) (mapsTo : Nat → List Nat) (store : List ConceptRecord)
    (text language : String)
    (h : ∀ c ∈ store, matchScore sim boost text c < threshold) :
    resolveApi true sim boost threshold mapsTo store text language = Except.ok [] ∧
    resolveApi false sim boost threshold mapsTo store text language =
      Except.error ResolveError.storeUnavailable ∧
    resolveApi true sim boost threshold mapsTo store text language ≠
      resolveApi false sim boost threshold mapsTo store text language ∧
    stepTableResults [] = ResultsView.noConceptsFound := by
  have hres := resolve_below_threshold sim boost threshold mapsTo store text language h
  refine ⟨by simp [resolveApi, hres], rfl, by simp [resolveApi, hres], rfl⟩

/-- Witness for C4: a one-concept store where the similarity function and
boost give every concept score 0, below the threshold 1; the reachable
store yields the empty success, the unreachable one StoreUnavailable. -/
theorem resolve_empty_success_distinct_witness :
    resolveApi true (fun _ _ => 0) 0 1 (fun _ => []) [demoConcept] "cough" "en" =
      Except.ok [] ∧
    resolveApi false (fun _ _ => 0) 0 1 (fun _ => []) [demoConcept] "cough" "en" =
      Except.error ResolveError.storeUnavailable ∧
    resolveApi true (fun _ _ => 0) 0 1 (fun _ => []) [demoConcept] "cough" "en" ≠
      resolveApi false (fun _ _ => 0) 0 1 (fun _ => []) [demoConcept] "cough" "en" ∧
    stepTableResults [] = ResultsView.noConceptsFound :=
  resolve_empty_success_distinct (fun _ _ => 0) 0 1 (fun _ => []) [demoConcept] "cough" "en"
    (by intro c hc; rw [List.mem_singleton] at hc; subst hc; decide)

/-- C5: a term that is blank after trimming is rejected by the search
operation with EmptyInput, with zero calls to the inference service and no
SearchQuery row created. -/
theorem search_blank_rejected (nextId now : Nat) (term language : String)
    (inference : Except String (List DisambiguationCandidate))
    (hblank : isBlank term = true) :
    searchOp nextId now term language inference =
      { result := Except.error SearchError.emptyInput
        inference_calls := 0
        created_queries := [] } := by
  unfold searchOp
  rw [if_pos hblank]

/-- Witness for C5: the empty term with any inference response is rejected
before any network call and creates no row. -/
theorem search_blank_rejected_witness :
    searchOp 1 0 "" "en" (Except.ok []) =
      { result := Except.error SearchError.emptyInput
        inference_calls := 0
        created_queries := [] } :=
  search_blank_rejected 1 0 "" "en" (Except.ok []) (by decide)

/-- C7: a failure of the analytics recording operations never reaches the
pipeline of the caller: the StepSynonyms click handler forwards the chosen
synonym whether the select_synonym post failed or succeeded, and the
best-effort record_query wrapper hands back the identical user-facing
results on failure and on success. -/
theorem analytics_failures_isolated (searchId : Option Nat) (e : String)
    (synonym : String) (sid : Nat) (results : List DisambiguationCandidate) :
    (StepSynonyms.handleSynonymClick searchId (Except.error e) synonym).forwarded_synonym
      = synonym ∧
    (StepSynonyms.handleSynonymClick searchId (Except.ok ()) synonym).forwarded_synonym
      = synonym ∧
    (searchWithRecording (Except.error e) results).2 = results ∧
    (searchWithRecording (Except.ok sid) results).2 = results := by
  rcases searchId with _ | s₀ <;> exact ⟨rfl, rfl, rfl, rfl⟩

/-- C8: compute_metrics over the empty SearchQuery and SearchPath history
yields total_searches 0 and every map-valued field empty, as a plain value
rather than an error. -/
theorem compute_metrics_empty_history :
    compute_metrics [] [] =
      { total_searches := 0
        language_distribution := []
        search_trend := []
        common_search_terms := []
        concept_lookup_percentage := 0
        most_viewed_concepts := []
        most_selected_synonyms := [] } := rfl

/-- C10: after a successful metrics fetch the stored dashboard object has
all six fields defined: a field missing from the response is replaced by
its default (empty map or list, or zero) and a present field is kept, so
the chart-preparation code never reads an undefined field. -/
theorem dashboard_metrics_all_fields_defined (d : RawMetricsResponse) :
    (d.language_distribution = none → (fetchDataDefaults d).language_distribution = []) ∧
    (∀ v, d.language_distribution = some v →
      (fetchDataDefaults d).language_distribution = v) ∧
    (d.total_searches = none → (fetchDataDefaults d).total_searches = 0) ∧
    (∀ v, d.total_searches = some v → (fetchDataDefaults d).total_searches = v) ∧
    (d.search_trend = none → (fetchDataDefaults d).search_trend = []) ∧
    (∀ v, d.search_trend = some v → (fetchDataDefaults d).search_trend = v) ∧
    (d.common_search_terms = none → (fetchDataDefaults d).common_search_terms = []) ∧
    (∀ v, d.common_search_terms = some v →
      (fetchDataDefaults d).common_search_terms = v) ∧
    (d.concept_lookup_percentage = none →
      (fetchDataDefaults d).concept_lookup_percentage = 0) ∧
    (∀ v, d.concept_lookup_percentage = some v →
      (fetchDataDefaults d).concept_lookup_percentage = v) ∧
    (d.most_viewed_concepts = none → (fetchDataDefaults d).most_viewed_concepts = []) ∧
    (∀ v, d.most_viewed_concepts = some v →
      (fetchDataDefaults d).most_viewed_concepts = v) := by
  refine ⟨fun h => ?_, fun v h => ?_, fun h => ?_, fun v h => ?_, fun h => ?_,
    fun v h => ?_, fun h => ?_, fun v h => ?_, fun h => ?_, fun v h => ?_,
    fun h => ?_, fun v h => ?_⟩ <;>
    simp [fetchDataDefaults, h]

theorem runEvents_conceptTable_source :
    ∀ (events : List UiEvent) (s : MainState),
      (runEvents s events).conceptTable ≠ [] →
        (∃ e ∈ events, isConceptFillingClick e = true) ∨ s.conceptTable ≠ [] := by
  intro events
  induction events with
  | nil => intro s h; exact Or.inr h
  | cons e es ih =>
    intro s h
    rcases ih (applyEvent s e) h with hex | hne
    · rcases hex with ⟨e₀, he₀, hfill⟩
      exact Or.inl ⟨e₀, List.mem_cons_of_mem _ he₀, hfill⟩
    · cases e with
      | search t r => cases r <;> simp [applyEvent] at hne
      | disambiguationSelect t r => cases r <;> simp [applyEvent] at hne
      | synonymClick syn r =>
        cases r with
        | ok concepts =>
          cases concepts with
          | nil => simp [applyEvent] at hne
          | cons c cs =>
            exact Or.inl ⟨UiEvent.synonymClick syn (ApiResult.ok (c :: cs)),
              List.mem_cons_self _ _, by simp [isConceptFillingClick]⟩
        | err m =>
          simp [applyEvent] at hne
          exact Or.inr hne
      | stepClick i =>
        simp only [applyEvent] at hne
        split at hne <;> exact Or.inr hne
      | stepNext =>
        simp only [applyEvent] at hne
        split at hne <;> exact Or.inr hne
      | stepBack =>
        simp only [applyEvent] at hne
        split at hne <;> exact Or.inr hne

theorem runEvents_synonyms_source :
    ∀ (events : List UiEvent) (s : MainState),
      (runEvents s events).synonyms ≠ [] →
        (∃ e ∈ events, isSynonymFillingSelect e = true) ∨ s.synonyms ≠ [] := by
  intro events
  induction events with
  | nil => intro s h; exact Or.inr h
  | cons e es ih =>
    intro s h
    rcases ih (applyEvent s e) h with hex | hne
    · rcases hex with ⟨e₀, he₀, hfill⟩
      exact Or.inl ⟨e₀, List.mem_cons_of_mem _ he₀, hfill⟩
    · cases e with
      | search t r =>
        cases r <;> · simp only [applyEvent] at hne; exact Or.inr hne
      | disambiguationSelect t r =>
        cases r with
        | ok syns =>
          exact Or.inl ⟨UiEvent.disambiguationSelect t (ApiResult.ok syns),
            List.mem_cons_self _ _, by simp [isSynonymFillingSelect]⟩
        | err m =>
          simp only [applyEvent] at hne
          exact Or.inr hne
      | synonymClick syn r =>
        cases r with
        | ok concepts =>
          simp only [applyEvent] at hne
          split at hne <;> exact Or.inr hne
        | err m =>
          simp only [applyEvent] at hne
          exact Or.inr hne
      | stepClick i =>
        simp only [applyEvent] at hne
        split at hne <;> exact Or.inr hne
      | stepNext =>
        simp only [applyEvent] at hne
        split at hne <;> exact Or.inr hne
      | stepBack =>
        simp only [applyEvent] at hne
        split at hne <;> exact Or.inr hne

/-- C9 counterexample: from the initial state, one successful search
followed by two Next clicks of the stepper displays the concept-results
stage (step 2) although no disambiguation candidate was ever selected
(selectedTerm stays none) and no synonym was ever clicked (synonyms and
conceptTable stay empty); the stages are therefore not gated on an
explicit user selection. -/
theorem stepper_reaches_results_without_selection :
    (runEvents initState
      [UiEvent.search "cold" (ApiResult.ok [demoSense]),
        UiEvent.stepNext, UiEvent.stepNext]).currentStep = 2 ∧
    (runEvents initState
      [UiEvent.search "cold" (ApiResult.ok [demoSense]),
        UiEvent.stepNext, UiEvent.stepNext]).selectedTerm = none ∧
    (runEvents initState
      [UiEvent.search "cold" (ApiResult.ok [demoSense]),
        UiEvent.stepNext, UiEvent.stepNext]).synonyms = [] ∧
    (runEvents initState
      [UiEvent.search "cold" (ApiResult.ok [demoSense]),
        UiEvent.stepNext, UiEvent.stepNext]).conceptTable = [] := by
  exact ⟨rfl, rfl, rfl, rfl⟩

/-- C9 amended: the data transitions of the pipeline are gated on user
selections: in every event sequence from the initial state, the concept
table is non-empty only if a synonym was clicked with a successful
non-empty concept lookup, and the synonym list is non-empty only if a
disambiguation candidate was selected with a successful synonym request;
however the stepper navigation (Next and step clicks up to one step ahead)
can display a later stage view without any selection. -/
theorem pipeline_data_gated_by_selections (events : List UiEvent) :
    ((runEvents initState events).conceptTable ≠ [] →
      ∃ e ∈ events, isConceptFillingClick e = true) ∧
    ((runEvents initState events).synonyms ≠ [] →
      ∃ e ∈ events, isSynonymFillingSelect e = true) := by
  constructor
  · intro h
    rcases runEvents_conceptTable_source events initState h with hex | hne
    · exact hex
    · simp [initState] at hne
  · intro h
    rcases runEvents_synonyms_source events initState h with hex | hne
    · exact hex
    · simp [initState] at hne
